import Mathlib

/-!
Verification development for the idl2json repository: a shallow embedding of the
CLI orchestration layer (idl2json_cli/src/lib.rs), the JSON-to-IDL reverse
conversion helpers (idl2json/src/reverse_conversion.rs), and spec-modelled
versions of the external collaborators those functions call (the document
parser/printer, the candid value printer, the yaml2candid document-to-value
converter, the value-to-document converter, and the init-argument extractor),
together with theorems settling the frozen claims about the system.
-/

namespace Idl2Json

/-- Structured error type standing for the anyhow error values produced by the
conversion code, one constructor per distinct error message / error-taxonomy
case of the specification. -/
inductive ConvError where
  | malformedInput : ConvError
  | expectedJsonArray : ConvError
  | arityMismatch (expected actual : Nat) : ConvError
  | unknownType (name : String) : ConvError
  | typeMismatch : ConvError
  | outOfRange : ConvError
  | missingField (name : String) : ConvError
  | unknownVariant (name : String) : ConvError
  | noInitArgs : ConvError
  | parseTypeFailed : ConvError
  | typeRequired : ConvError
  | noDidFile : ConvError
  | ioError (msg : String) : ConvError
  | recursionLimit : ConvError
deriving DecidableEq, Repr

/-- The generic schema-less document tree (serde_json::Value); numbers are
modelled as integers, which covers every numeric literal the claims involve. -/
inductive JsonValue where
  | null : JsonValue
  | bool (b : Bool) : JsonValue
  | num (n : Int) : JsonValue
  | str (s : String) : JsonValue
  | arr (xs : List JsonValue) : JsonValue
  | obj (kvs : List (String × JsonValue)) : JsonValue
deriving Repr

/-- The opening-brace character, written numerically. -/
def lbrace : Char := Char.ofNat 123

/-- The closing-brace character, written numerically. -/
def rbrace : Char := Char.ofNat 125

/-- Candid primitive types appearing in the embedding. -/
inductive PrimType where
  | bool : PrimType
  | nat : PrimType
  | int : PrimType
  | nat8 : PrimType
  | nat16 : PrimType
  | nat32 : PrimType
  | nat64 : PrimType
  | int8 : PrimType
  | int16 : PrimType
  | int32 : PrimType
  | int64 : PrimType
  | text : PrimType
  | null : PrimType
deriving DecidableEq, Repr

/-- candid_parser IDLType: the recursive tagged type structure. -/
inductive IDLType where
  | primT (p : PrimType) : IDLType
  | varT (name : String) : IDLType
  | optT (t : IDLType) : IDLType
  | vecT (t : IDLType) : IDLType
  | recordT (fields : List (String × IDLType)) : IDLType
  | variantT (alts : List (String × IDLType)) : IDLType
  | classT (args : List IDLType) (t : IDLType) : IDLType
  | servT : IDLType
deriving Repr

/-- candid_parser IDLTypes: a tuple of argument types. -/
structure IDLTypes where
  args : List IDLType
deriving Repr

/-- candid_parser IDLProg: named type declarations plus an optional service
(actor) definition.  An actor of the form classT gives the init-argument
types. -/
structure IDLProg where
  decs : List (String × IDLType)
  actor : Option IDLType
deriving Repr

/-- candid IDLValue: the typed value tree. -/
inductive IDLValue where
  | null : IDLValue
  | bool (b : Bool) : IDLValue
  | nat (n : Nat) : IDLValue
  | int (i : Int) : IDLValue
  | nat8 (n : Nat) : IDLValue
  | nat16 (n : Nat) : IDLValue
  | nat32 (n : Nat) : IDLValue
  | nat64 (n : Nat) : IDLValue
  | int8 (i : Int) : IDLValue
  | int16 (i : Int) : IDLValue
  | int32 (i : Int) : IDLValue
  | int64 (i : Int) : IDLValue
  | text (s : String) : IDLValue
  | none : IDLValue
  | opt (v : IDLValue) : IDLValue
  | vec (vs : List IDLValue) : IDLValue
  | record (fields : List (String × IDLValue)) : IDLValue
  | variant (name : String) (v : IDLValue) : IDLValue
deriving Repr

/-- candid IDLArgs: a tuple of top-level argument values. -/
structure IDLArgs where
  args : List IDLValue
deriving Repr

/-- Drop leading whitespace characters. -/
def skipWs : List Char → List Char
  | [] => []
  | c :: cs => if c.isWhitespace then skipWs cs else c :: cs

/-- Decimal digits to a natural number. -/
def digitsToNat (cs : List Char) : Nat :=
  cs.foldl (fun acc c => acc * 10 + (c.toNat - 48)) 0

/-- Characters of a string literal up to the closing quote (no escapes). -/
def takeStringChars : List Char → Option (List Char × List Char)
  | [] => Option.none
  | c :: cs =>
    if c = '"' then some ([], cs)
    else
      match takeStringChars cs with
      | some (s, rest) => some (c :: s, rest)
      | Option.none => Option.none

mutual

/-- Modelled from the spec: the external JSON document parser (serde_json
from_str), which is out of scope of the core and absent from src.  Fuel makes
the recursion structural; the wrapper supplies fuel ample for its input. -/
def parseVal : Nat → List Char → Option (JsonValue × List Char)
  | 0, _ => Option.none
  | n + 1, cs =>
    match skipWs cs with
    | 'n' :: 'u' :: 'l' :: 'l' :: rest => some (.null, rest)
    | 't' :: 'r' :: 'u' :: 'e' :: rest => some (.bool true, rest)
    | 'f' :: 'a' :: 'l' :: 's' :: 'e' :: rest => some (.bool false, rest)
    | '"' :: rest =>
      match takeStringChars rest with
      | some (s, rest2) => some (.str (String.mk s), rest2)
      | Option.none => Option.none
    | '-' :: rest =>
      let digits := rest.takeWhile Char.isDigit
      if digits.isEmpty then Option.none
      else some (.num (-(Int.ofNat (digitsToNat digits))), rest.drop digits.length)
    | '[' :: rest =>
      (match skipWs rest with
       | ']' :: rest2 => some (.arr [], rest2)
       | _ =>
         match parseArrItems n rest with
         | some (xs, rest2) => some (.arr xs, rest2)
         | Option.none => Option.none)
    | c :: rest =>
      if c = lbrace then
        match skipWs rest with
        | d :: rest2 =>
          if d = rbrace then some (.obj [], rest2)
          else
            match parseObjItems n rest with
            | some (kvs, rest3) => some (.obj kvs, rest3)
            | Option.none => Option.none
        | [] => Option.none
      else if c.isDigit then
        let digits := (c :: rest).takeWhile Char.isDigit
        some (.num (Int.ofNat (digitsToNat digits)), (c :: rest).drop digits.length)
      else Option.none
    | [] => Option.none

/-- Comma-separated JSON array items up to the closing bracket. -/
def parseArrItems : Nat → List Char → Option (List JsonValue × List Char)
  | 0, _ => Option.none
  | n + 1, cs =>
    match parseVal n cs with
    | some (v, rest) =>
      (match skipWs rest with
       | ',' :: rest2 =>
         (match parseArrItems n rest2 with
          | some (vs, rest3) => some (v :: vs, rest3)
          | Option.none => Option.none)
       | ']' :: rest2 => some ([v], rest2)
       | _ => Option.none)
    | Option.none => Option.none

/-- Comma-separated JSON object members up to the closing brace. -/
def parseObjItems : Nat → List Char → Option (List (String × JsonValue) × List Char)
  | 0, _ => Option.none
  | n + 1, cs =>
    match skipWs cs with
    | '"' :: rest =>
      match takeStringChars rest with
      | some (k, rest2) =>
        (match skipWs rest2 with
         | ':' :: rest3 =>
           (match parseVal n rest3 with
            | some (v, rest4) =>
              (match skipWs rest4 with
               | ',' :: rest5 =>
                 (match parseObjItems n rest5 with
                  | some (kvs, rest6) => some ((String.mk k, v) :: kvs, rest6)
                  | Option.none => Option.none)
               | d :: rest5 =>
                 if d = rbrace then some ([(String.mk k, v)], rest5) else Option.none
               | [] => Option.none)
            | Option.none => Option.none)
         | _ => Option.none)
      | Option.none => Option.none
    | _ => Option.none

end

/-- Modelled from the spec: the external JSON parser entry point; fails on
text that is not a single JSON document. -/
def parseJson (s : String) : Option JsonValue :=
  match parseVal (2 * s.length + 2) s.data with
  | some (v, rest) => if (skipWs rest).isEmpty then some v else Option.none
  | Option.none => Option.none

mutual

/-- Modelled from the spec: compact JSON serialization (serde_json to_string),
the external document printer. -/
def toStringJson : JsonValue → String
  | .null => "null"
  | .bool true => "true"
  | .bool false => "false"
  | .num n => toString n
  | .str s => "\"" ++ s ++ "\""
  | .arr xs => "[" ++ toStringJsonList xs ++ "]"
  | .obj kvs => "\x7b" ++ toStringJsonObj kvs ++ "\x7d"

/-- Comma-joined compact renderings of array elements. -/
def toStringJsonList : List JsonValue → String
  | [] => ""
  | [x] => toStringJson x
  | x :: y :: xs => toStringJson x ++ "," ++ toStringJsonList (y :: xs)

/-- Comma-joined compact renderings of object members. -/
def toStringJsonObj : List (String × JsonValue) → String
  | [] => ""
  | [(k, v)] => "\"" ++ k ++ "\":" ++ toStringJson v
  | (k, v) :: y :: xs => "\"" ++ k ++ "\":" ++ toStringJson v ++ "," ++ toStringJsonObj (y :: xs)

end

/-- Two-space indentation at a nesting level. -/
def indentStr (n : Nat) : String := String.mk (List.replicate (2 * n) ' ')

mutual

/-- Modelled from the spec: pretty-printed JSON serialization (serde_json
to_string_pretty), the external document printer in pretty mode. -/
def prettyJson : Nat → JsonValue → String
  | _, .null => "null"
  | _, .bool true => "true"
  | _, .bool false => "false"
  | _, .num n => toString n
  | _, .str s => "\"" ++ s ++ "\""
  | _, .arr [] => "[]"
  | ind, .arr (x :: xs) =>
    "[\n" ++ prettyJsonList (ind + 1) (x :: xs) ++ "\n" ++ indentStr ind ++ "]"
  | _, .obj [] => "\x7b\x7d"
  | ind, .obj (kv :: kvs) =>
    "\x7b\n" ++ prettyJsonObj (ind + 1) (kv :: kvs) ++ "\n" ++ indentStr ind ++ "\x7d"

/-- Pretty renderings of array elements, one per line. -/
def prettyJsonList : Nat → List JsonValue → String
  | _, [] => ""
  | ind, [x] => indentStr ind ++ prettyJson ind x
  | ind, x :: y :: xs =>
    indentStr ind ++ prettyJson ind x ++ ",\n" ++ prettyJsonList ind (y :: xs)

/-- Pretty renderings of object members, one per line. -/
def prettyJsonObj : Nat → List (String × JsonValue) → String
  | _, [] => ""
  | ind, [(k, v)] => indentStr ind ++ "\"" ++ k ++ "\": " ++ prettyJson ind v
  | ind, (k, v) :: y :: xs =>
    indentStr ind ++ "\"" ++ k ++ "\": " ++ prettyJson ind v ++ ",\n" ++ prettyJsonObj ind (y :: xs)

end

/-- Pretty serialization entry point at outermost nesting level. -/
def toStringPrettyJson (v : JsonValue) : String := prettyJson 0 v

mutual

/-- Modelled from the spec: the external candid value printer (IDLValue
to_string), rendering a typed value tree back to candid text. -/
def renderIDLValue : IDLValue → String
  | .null => "null"
  | .bool true => "true"
  | .bool false => "false"
  | .nat n => toString n
  | .int i => toString i
  | .nat8 n => toString n
  | .nat16 n => toString n
  | .nat32 n => toString n
  | .nat64 n => toString n
  | .int8 i => toString i
  | .int16 i => toString i
  | .int32 i => toString i
  | .int64 i => toString i
  | .text s => "\"" ++ s ++ "\""
  | .none => "null"
  | .opt v => "opt " ++ renderIDLValue v
  | .vec vs => "vec \x7b " ++ renderIDLSeq vs ++ " \x7d"
  | .record fs => "record \x7b " ++ renderIDLFields fs ++ " \x7d"
  | .variant k v => "variant \x7b " ++ k ++ " = " ++ renderIDLValue v ++ " \x7d"

/-- Semicolon-joined renderings of sequence elements. -/
def renderIDLSeq : List IDLValue → String
  | [] => ""
  | [v] => renderIDLValue v
  | v :: w :: vs => renderIDLValue v ++ "; " ++ renderIDLSeq (w :: vs)

/-- Semicolon-joined renderings of record fields. -/
def renderIDLFields : List (String × IDLValue) → String
  | [] => ""
  | [(k, v)] => k ++ " = " ++ renderIDLValue v
  | (k, v) :: y :: fs => k ++ " = " ++ renderIDLValue v ++ "; " ++ renderIDLFields (y :: fs)

end

/-- Modelled from the spec: the external candid argument-tuple printer
(IDLArgs to_string). -/
def renderIDLArgs (args : IDLArgs) : String :=
  "(" ++ String.intercalate ", " (args.args.map renderIDLValue) ++ ")"

/-- Collect a list of fallible results, stopping at the first error: the shape
of Rust's iterator collect into Result. -/
def collectExcept {e a : Type} : List (Except e a) → Except e (List a)
  | [] => .ok []
  | x :: xs =>
    match x with
    | .error err => .error err
    | .ok v =>
      match collectExcept xs with
      | .error err => .error err
      | .ok vs => .ok (v :: vs)

/-- Exact-match named-type lookup in a program's declaration list. -/
def lookupType (prog : IDLProg) (name : String) : Option IDLType :=
  (prog.decs.find? (fun d => d.1 == name)).map (fun d => d.2)

/-- Modelled from the spec: init-argument extraction (polyfill
idl_prog::get_init_arg_type of the idl2json crate, absent from src): return
the ordered init-argument types of the service's init clause, failing when
the program has no service definition or the service has no init clause. -/
def get_init_arg_type (prog : IDLProg) : Except ConvError IDLTypes :=
  match prog.actor with
  | some (.classT args _) => .ok (IDLTypes.mk args)
  | some _ => .error .noInitArgs
  | Option.none => .error .noInitArgs

/-- Whether a type is syntactically an option type (for absent-field
handling during record conversion). -/
def isOptT : IDLType → Bool
  | .optT _ => true
  | _ => false

/-- Modelled from the spec: conversion of a document value to a fixed-width
unsigned numeric value, with range checking. -/
def fixedNat (w : Nat) (mk : Nat → IDLValue) (v : JsonValue) : Except ConvError IDLValue :=
  match v with
  | .num n => if 0 ≤ n ∧ n < (2 : Int) ^ w then .ok (mk n.toNat) else .error .outOfRange
  | _ => .error .typeMismatch

/-- Modelled from the spec: conversion of a document value to a fixed-width
signed numeric value, with range checking. -/
def fixedInt (w : Nat) (mk : Int → IDLValue) (v : JsonValue) : Except ConvError IDLValue :=
  match v with
  | .num n =>
    if -((2 : Int) ^ (w - 1)) ≤ n ∧ n < (2 : Int) ^ (w - 1) then .ok (mk n)
    else .error .outOfRange
  | _ => .error .typeMismatch

/-- Modelled from the spec: primitive-type conversion rules of the
document-to-value converter; arbitrary-precision integer types additionally
accept numeric strings. -/
def convertPrim (p : PrimType) (v : JsonValue) : Except ConvError IDLValue :=
  match p with
  | .bool =>
    (match v with
     | .bool b => .ok (.bool b)
     | _ => .error .typeMismatch)
  | .text =>
    (match v with
     | .str s => .ok (.text s)
     | _ => .error .typeMismatch)
  | .null =>
    (match v with
     | .null => .ok .null
     | _ => .error .typeMismatch)
  | .nat =>
    (match v with
     | .num n => if 0 ≤ n then .ok (.nat n.toNat) else .error .outOfRange
     | .str s =>
       (match s.toInt? with
        | some n => if 0 ≤ n then .ok (.nat n.toNat) else .error .outOfRange
        | Option.none => .error .typeMismatch)
     | _ => .error .typeMismatch)
  | .int =>
    (match v with
     | .num n => .ok (.int n)
     | .str s =>
       (match s.toInt? with
        | some n => .ok (.int n)
        | Option.none => .error .typeMismatch)
     | _ => .error .typeMismatch)
  | .nat8 => fixedNat 8 IDLValue.nat8 v
  | .nat16 => fixedNat 16 IDLValue.nat16 v
  | .nat32 => fixedNat 32 IDLValue.nat32 v
  | .nat64 => fixedNat 64 IDLValue.nat64 v
  | .int8 => fixedInt 8 IDLValue.int8 v
  | .int16 => fixedInt 16 IDLValue.int16 v
  | .int32 => fixedInt 32 IDLValue.int32 v
  | .int64 => fixedInt 64 IDLValue.int64 v

mutual

/-- Modelled from the spec: the type-directed document-to-value converter
(Yaml2Candid convert of the yaml2candid crate, absent from src), dispatching
on the type constructor: named references resolve through the environment,
options treat null as absence, vectors convert element-wise (byte vectors
additionally accept a string), records convert declared fields looking each
up by name, variants require a single-key mapping naming a declared
alternative.  Fuel bounds the recursion through named references. -/
def convertFuel : Nat → IDLProg → IDLType → JsonValue → Except ConvError IDLValue
  | 0, _, _, _ => .error .recursionLimit
  | n + 1, prog, t, v =>
    match t with
    | .varT name =>
      (match lookupType prog name with
       | some t2 => convertFuel n prog t2 v
       | Option.none => .error (.unknownType name))
    | .primT p => convertPrim p v
    | .optT t2 =>
      (match v with
       | .null => .ok .none
       | _ =>
         match convertFuel n prog t2 v with
         | .ok w => .ok (.opt w)
         | .error err => .error err)
    | .vecT t2 =>
      (match v, t2 with
       | .str s, .primT .nat8 =>
         .ok (.vec ((s.toUTF8.toList).map (fun b => .nat8 b.toNat)))
       | .arr xs, _ =>
         (match convertVec n prog t2 xs with
          | .ok ws => .ok (.vec ws)
          | .error err => .error err)
       | _, _ => .error .typeMismatch)
    | .recordT fts =>
      (match v with
       | .obj kvs =>
         (match convertFields n prog fts kvs with
          | .ok fs => .ok (.record fs)
          | .error err => .error err)
       | _ => .error .typeMismatch)
    | .variantT alts =>
      (match v with
       | .obj [(k, pv)] =>
         (match alts.find? (fun a => a.1 == k) with
          | some alt =>
            (match convertFuel n prog alt.2 pv with
             | .ok w => .ok (.variant k w)
             | .error err => .error err)
          | Option.none => .error (.unknownVariant k))
       | _ => .error .typeMismatch)
    | .classT _ _ => .error .typeMismatch
    | .servT => .error .typeMismatch

/-- Element-wise conversion of a document list against one element type. -/
def convertVec : Nat → IDLProg → IDLType → List JsonValue → Except ConvError (List IDLValue)
  | _, _, _, [] => .ok []
  | 0, _, _, _ :: _ => .error .recursionLimit
  | n + 1, prog, t, x :: xs =>
    match convertFuel n prog t x with
    | .error err => .error err
    | .ok v =>
      match convertVec n prog t xs with
      | .error err => .error err
      | .ok vs => .ok (v :: vs)

/-- Conversion of the declared fields of a record against a document mapping:
each declared field is looked up by name, absent option fields become none,
absent non-option fields are an error. -/
def convertFields : Nat → IDLProg → List (String × IDLType) → List (String × JsonValue) →
    Except ConvError (List (String × IDLValue))
  | _, _, [], _ => .ok []
  | 0, _, _ :: _, _ => .error .recursionLimit
  | n + 1, prog, (fname, ft) :: fts, kvs =>
    match
      (match kvs.find? (fun kv => kv.1 == fname) with
       | some kv => convertFuel n prog ft kv.2
       | Option.none =>
         if isOptT ft then .ok IDLValue.none else .error (.missingField fname))
    with
    | .error err => .error err
    | .ok fv =>
      match convertFields n prog fts kvs with
      | .error err => .error err
      | .ok rest => .ok ((fname, fv) :: rest)

end

/-- Fuel supplied to the document-to-value converter; ample for every input
considered in this development. -/
def defaultFuel : Nat := 1000

namespace Yaml2Candid

/-- Modelled from the spec: the document-to-value converter entry point
(Yaml2Candid convert), at the default fuel. -/
def convert (prog : IDLProg) (t : IDLType) (v : JsonValue) : Except ConvError IDLValue :=
  convertFuel defaultFuel prog t v

end Yaml2Candid

/-- Byte-array display modes of the Presentation Options (exact set is an
external contract; two representative modes are modelled). -/
inductive BytesFormat where
  | numbers : BytesFormat
  | hex : BytesFormat
deriving DecidableEq, Repr

/-- Presentation Options threaded through the IDL-to-document converters:
the loaded programs, the byte display mode, and the compact-output flag. -/
structure Idl2JsonOptions where
  prog : List IDLProg
  bytes_as : Option BytesFormat
  compact : Bool
deriving Repr

/-- Named-type lookup across the loaded programs, in order. -/
def lookupTypeInProgs : List IDLProg → String → Option IDLType
  | [], _ => Option.none
  | p :: ps, name =>
    match lookupType p name with
    | some t => some t
    | Option.none => lookupTypeInProgs ps name

/-- One hexadecimal digit character. -/
def hexDigit (n : Nat) : Char :=
  if n < 10 then Char.ofNat (48 + n) else Char.ofNat (87 + n)

/-- Two-digit hexadecimal rendering of a byte value. -/
def hexByte (v : IDLValue) : String :=
  match v with
  | .nat8 b => String.mk [hexDigit (b / 16), hexDigit (b % 16)]
  | _ => ""

mutual

/-- Modelled from the spec: the untyped value-to-document converter (idl2json
of the idl2json crate, absent from src), dispatching on the value's own
runtime shape: numbers render as document numbers within the safe precision
range and as numeric strings beyond it, records render their field
identifiers as string keys, variants render as a single-key mapping. -/
def idl2json : IDLValue → Idl2JsonOptions → JsonValue
  | .null, _ => .null
  | .bool b, _ => .bool b
  | .nat n, _ => if n ≤ 2 ^ 53 then .num (Int.ofNat n) else .str (toString n)
  | .int i, _ => if i.natAbs ≤ 2 ^ 53 then .num i else .str (toString i)
  | .nat8 n, _ => .num (Int.ofNat n)
  | .nat16 n, _ => .num (Int.ofNat n)
  | .nat32 n, _ => .num (Int.ofNat n)
  | .nat64 n, _ => if n ≤ 2 ^ 53 then .num (Int.ofNat n) else .str (toString n)
  | .int8 i, _ => .num i
  | .int16 i, _ => .num i
  | .int32 i, _ => .num i
  | .int64 i, _ => if i.natAbs ≤ 2 ^ 53 then .num i else .str (toString i)
  | .text s, _ => .str s
  | .none, _ => .arr []
  | .opt v, opts => .arr [idl2json v opts]
  | .vec vs, opts => .arr (idl2jsonList vs opts)
  | .record fs, opts => .obj (idl2jsonFields fs opts)
  | .variant k v, opts => .obj [(k, idl2json v opts)]

/-- Untyped conversion of each element of a sequence value. -/
def idl2jsonList : List IDLValue → Idl2JsonOptions → List JsonValue
  | [], _ => []
  | v :: vs, opts => idl2json v opts :: idl2jsonList vs opts

/-- Untyped conversion of each field of a record value. -/
def idl2jsonFields : List (String × IDLValue) → Idl2JsonOptions → List (String × JsonValue)
  | [], _ => []
  | (k, v) :: fs, opts => (k, idl2json v opts) :: idl2jsonFields fs opts

end

mutual

/-- Modelled from the spec: the typed (weak names) value-to-document converter
(idl2json_with_weak_names of the idl2json crate, absent from src): dispatch on
the type constructor mirroring the document-to-value direction in reverse,
record fields and variants emit declared names, byte vectors render per the
bytes display mode, and any shape disagreement falls back to the untyped
conversion.  Fuel bounds the recursion through named references. -/
def idl2jsonWeakFuel : Nat → IDLValue → IDLType → Idl2JsonOptions → JsonValue
  | 0, v, _, opts => idl2json v opts
  | n + 1, v, t, opts =>
    match t with
    | .varT name =>
      (match lookupTypeInProgs opts.prog name with
       | some t2 => idl2jsonWeakFuel n v t2 opts
       | Option.none => idl2json v opts)
    | .primT _ => idl2json v opts
    | .optT t2 =>
      (match v with
       | .none => .arr []
       | .opt w => .arr [idl2jsonWeakFuel n w t2 opts]
       | _ => idl2json v opts)
    | .vecT (.primT .nat8) =>
      (match v with
       | .vec ws =>
         (match opts.bytes_as with
          | some .hex => .str (String.join (ws.map hexByte))
          | _ => .arr (idl2jsonList ws opts))
       | _ => idl2json v opts)
    | .vecT t2 =>
      (match v with
       | .vec ws => .arr (idl2jsonWeakList n ws t2 opts)
       | _ => idl2json v opts)
    | .recordT fts =>
      (match v with
       | .record fvs => .obj (idl2jsonWeakFields n fvs fts opts)
       | _ => idl2json v opts)
    | .variantT alts =>
      (match v with
       | .variant k w =>
         (match alts.find? (fun a => a.1 == k) with
          | some alt => .obj [(k, idl2jsonWeakFuel n w alt.2 opts)]
          | Option.none => .obj [(k, idl2json w opts)])
       | _ => idl2json v opts)
    | .classT _ _ => idl2json v opts
    | .servT => idl2json v opts

/-- Typed conversion of each element of a sequence value against the element
type. -/
def idl2jsonWeakList : Nat → List IDLValue → IDLType → Idl2JsonOptions → List JsonValue
  | _, [], _, _ => []
  | 0, w :: ws, _, opts => idl2jsonList (w :: ws) opts
  | n + 1, w :: ws, t, opts =>
    idl2jsonWeakFuel n w t opts :: idl2jsonWeakList n ws t opts

/-- Typed conversion of record fields: each value field keeps its key and is
converted against the declared type of that key when one exists. -/
def idl2jsonWeakFields : Nat → List (String × IDLValue) → List (String × IDLType) →
    Idl2JsonOptions → List (String × JsonValue)
  | _, [], _, _ => []
  | 0, (k, w) :: fvs, _, opts => idl2jsonFields ((k, w) :: fvs) opts
  | n + 1, (k, w) :: fvs, fts, opts =>
    (match fts.find? (fun f => f.1 == k) with
     | some f => (k, idl2jsonWeakFuel n w f.2 opts)
     | Option.none => (k, idl2json w opts)) :: idl2jsonWeakFields n fvs fts opts

end

/-- Modelled from the spec: typed value-to-document conversion entry point, at
the default fuel. -/
def idl2json_with_weak_names (v : IDLValue) (t : IDLType) (opts : Idl2JsonOptions) : JsonValue :=
  idl2jsonWeakFuel defaultFuel v t opts

/-- Pair each top-level argument value with its declared type positionally;
arguments beyond the declared types convert untyped. -/
def weakPair : List IDLValue → List IDLType → Idl2JsonOptions → List JsonValue
  | [], _, _ => []
  | v :: vs, [], opts => idl2json v opts :: weakPair vs [] opts
  | v :: vs, t :: ts, opts => idl2json_with_weak_names v t opts :: weakPair vs ts opts

/-- Modelled from the spec: the argument-tuple value-to-document converter
(idl_args2json_with_weak_names of the idl2json crate, absent from src).  Each
top-level argument is converted independently; the function returns a single
document value collecting the per-argument conversions, which the caller in
src serializes with one serde_json to_string call. -/
def idl_args2json_with_weak_names (args : IDLArgs) (types : IDLTypes)
    (opts : Idl2JsonOptions) : JsonValue :=
  .arr (weakPair args.args types.args opts)

/-- Collect a list of optional results, None if any is None. -/
def collectOption {a : Type} : List (Option a) → Option (List a)
  | [] => some []
  | x :: xs =>
    match x with
    | Option.none => Option.none
    | some v =>
      match collectOption xs with
      | Option.none => Option.none
      | some vs => some (v :: vs)

/-- Modelled from Rust str::trim: drop leading and trailing whitespace. -/
def strTrim (s : String) : String :=
  String.mk (skipWs (skipWs s.data.reverse).reverse)

/-- Modelled from Rust str::starts_with on a string pattern. -/
def strStartsWith (s pre : String) : Bool := pre.data.isPrefixOf s.data

/-- Modelled from Rust str::ends_with on a string pattern. -/
def strEndsWith (s suf : String) : Bool := suf.data.isSuffixOf s.data

/-- Modelled from Rust str::contains on a single character pattern. -/
def strContainsChar (s : String) (c : Char) : Bool := s.data.contains c

/-- Modelled from Rust str::contains on a character-class pattern. -/
def strAny (s : String) (p : Char → Bool) : Bool := s.data.any p

/-- All characters satisfy a predicate. -/
def strAll (s : String) (p : Char → Bool) : Bool := s.data.all p

/-- Drop the first n characters. -/
def strDrop (s : String) (n : Nat) : String := String.mk (s.data.drop n)

/-- Drop the last n characters. -/
def strDropRight (s : String) (n : Nat) : String := String.mk (s.data.take (s.data.length - n))

/-- Split a character list at every occurrence of a separator character. -/
def splitChar (c : Char) : List Char → List (List Char)
  | [] => [[]]
  | x :: xs =>
    let r := splitChar c xs
    if x = c then [] :: r
    else
      match r with
      | [] => [[x]]
      | y :: ys => (x :: y) :: ys

/-- Split a string at commas (Rust str::split with a comma pattern). -/
def strSplitComma (s : String) : List String := (splitChar ',' s.data).map String.mk

/-- Keyword table of primitive type names. -/
def primOfString (s : String) : Option PrimType :=
  match s with
  | "bool" => some .bool
  | "nat" => some .nat
  | "int" => some .int
  | "nat8" => some .nat8
  | "nat16" => some .nat16
  | "nat32" => some .nat32
  | "nat64" => some .nat64
  | "int8" => some .int8
  | "int16" => some .int16
  | "int32" => some .int32
  | "int64" => some .int64
  | "text" => some .text
  | "null" => some .null
  | _ => Option.none

/-- Identifier characters of a candid type name. -/
def isIdentChar (c : Char) : Bool := c.isAlphanum || c = '_'

/-- Modelled from the spec: the external candid type-literal parser (IDLType
from_str of candid_parser), on the fragment of the grammar this development
needs: primitive keywords, opt and vec composites, and bare identifiers as
named references.  Fuel makes the recursion structural. -/
def parseIDLTypeFuel : Nat → String → Option IDLType
  | 0, _ => Option.none
  | n + 1, s =>
    let s2 := strTrim s
    match primOfString s2 with
    | some p => some (.primT p)
    | Option.none =>
      if strStartsWith s2 "opt " then
        match parseIDLTypeFuel n (strDrop s2 4) with
        | some t => some (.optT t)
        | Option.none => Option.none
      else if strStartsWith s2 "vec " then
        match parseIDLTypeFuel n (strDrop s2 4) with
        | some t => some (.vecT t)
        | Option.none => Option.none
      else if s2.data.length ≠ 0 ∧ strAll s2 isIdentChar then some (.varT s2)
      else Option.none

/-- Modelled from the spec: candid type-literal parsing entry point. -/
def parseIDLType (s : String) : Option IDLType := parseIDLTypeFuel (s.data.length + 1) s

/-- Modelled from the spec: the external tuple-of-types parser (IDLTypes
from_str of candid_parser): a parenthesized comma-separated list of type
literals. -/
def parseIDLTypes (s : String) : Option IDLTypes :=
  let s2 := strTrim s
  if strStartsWith s2 "(" ∧ strEndsWith s2 ")" then
    let inner := strDropRight (strDrop s2 1) 1
    if (strTrim inner).data.isEmpty then some (IDLTypes.mk [])
    else
      match collectOption ((strSplitComma inner).map parseIDLType) with
      | some ts => some (IDLTypes.mk ts)
      | Option.none => Option.none
  else Option.none

namespace ReverseConversion

/-- json_str_to_value of reverse_conversion.rs: parse the JSON input text,
failing with the malformed-input error. -/
def json_str_to_value (json_str : String) : Except ConvError JsonValue :=
  match parseJson json_str with
  | some v => .ok v
  | Option.none => .error .malformedInput

/-- json_value_to_yaml_value of reverse_conversion.rs: the internal bridging
step re-expressing a document value in the generic representation consumed by
the construction helper; on the modelled document values it is the
identity. -/
def json_value_to_yaml_value (v : JsonValue) : Except ConvError JsonValue := .ok v

/-- convert_one of reverse_conversion.rs: bridge one document value and
convert it against one type, rendering the resulting value to candid text. -/
def convert_one (prog : IDLProg) (typ : IDLType) (json_value : JsonValue) :
    Except ConvError String :=
  match json_value_to_yaml_value json_value with
  | .error err => .error err
  | .ok yaml_value =>
    match Yaml2Candid.convert prog typ yaml_value with
    | .error err => .error err
    | .ok idl_value => .ok (renderIDLValue idl_value)

/-- json2idl_with_type_name of reverse_conversion.rs: single-value conversion
against a named type, looked up through a variable reference. -/
def json2idl_with_type_name (prog : IDLProg) (type_name : String) (json_str : String) :
    Except ConvError String :=
  match json_str_to_value json_str with
  | .error err => .error err
  | .ok json_value => convert_one prog (.varT type_name) json_value

/-- json2idl_with_type of reverse_conversion.rs: single-value conversion
against a literal type. -/
def json2idl_with_type (prog : IDLProg) (idl_type : IDLType) (json_str : String) :
    Except ConvError String :=
  match json_str_to_value json_str with
  | .error err => .error err
  | .ok json_value => convert_one prog idl_type json_value

/-- json_args2idl_with_types of reverse_conversion.rs: parse the input, require
a JSON array whose length equals the number of declared argument types, then
convert element-wise by position and render the resulting argument tuple. -/
def json_args2idl_with_types (prog : IDLProg) (idl_types : IDLTypes) (json_str : String) :
    Except ConvError String :=
  match json_str_to_value json_str with
  | .error err => .error err
  | .ok json_value =>
    match json_value with
    | .arr json_args =>
      if json_args.length ≠ idl_types.args.length then
        .error (.arityMismatch idl_types.args.length json_args.length)
      else
        match collectExcept ((json_args.zip idl_types.args).map
            (fun p => Yaml2Candid.convert prog p.2 p.1)) with
        | .error err => .error err
        | .ok args => .ok (renderIDLArgs (IDLArgs.mk args))
    | _ => .error .expectedJsonArray

end ReverseConversion

namespace Cli

/-- Args of idl2json_cli/src/lib.rs (the IDL-to-document direction): type
name or literal, init flag, byte display mode, compact flag.  The did-file
paths are replaced by the per-file read-and-parse outcomes passed to main. -/
structure Args where
  typ : Option String
  init : Bool
  bytes_as : Option BytesFormat
  compact : Bool

/-- Json2IdlArgs of idl2json_cli/src/lib.rs (the document-to-IDL direction). -/
structure Json2IdlArgs where
  typ : Option String
  init : Bool

/-- load_did_files of idl2json_cli/src/lib.rs: read and parse every listed
.did file, collecting the results and stopping at the first failure.  Each
list entry is the outcome of reading and externally parsing one file. -/
def load_did_files (dids : List (Except ConvError IDLProg)) : Except ConvError (List IDLProg) :=
  collectExcept dids

/-- The empty program used by main_json2idl when no .did file is given. -/
def emptyProg : IDLProg := { decs := [], actor := Option.none }

/-- main_json2idl of idl2json_cli/src/lib.rs: load the schema sources, keep
only the first (or an empty program), then dispatch on the init flag and the
shape of the explicit type string. -/
def main_json2idl (args : Json2IdlArgs) (dids : List (Except ConvError IDLProg))
    (json_str : String) : Except ConvError String :=
  match load_did_files dids with
  | .error err => .error err
  | .ok progs =>
    let did_prog := progs.headD emptyProg
    if args.init then
      match get_init_arg_type did_prog with
      | .error err => .error err
      | .ok init_arg_types =>
        ReverseConversion.json_args2idl_with_types did_prog init_arg_types json_str
    else
      match args.typ with
      | some typ =>
        if strStartsWith (strTrim typ) "(" then
          match parseIDLTypes typ with
          | some idl_types =>
            ReverseConversion.json_args2idl_with_types did_prog idl_types json_str
          | Option.none => .error .parseTypeFailed
        else
          let trimmed_typ := strTrim typ
          if ¬ strAny trimmed_typ Char.isWhitespace ∧ ¬ strContainsChar trimmed_typ lbrace
              ∧ ¬ strContainsChar trimmed_typ rbrace ∧ ¬ strContainsChar trimmed_typ ':'
              ∧ ¬ strContainsChar trimmed_typ ';' then
            ReverseConversion.json2idl_with_type_name did_prog trimmed_typ json_str
          else
            match parseIDLType trimmed_typ with
            | some idl_type =>
              ReverseConversion.json2idl_with_type did_prog idl_type json_str
            | Option.none => .error .parseTypeFailed
      | Option.none => .error .typeRequired

/-- convert_one of idl2json_cli/src/lib.rs: convert a single argument value
(typed with weak names when a type is given, untyped otherwise) and serialize
it compactly or pretty per the compact option. -/
def convert_one (idl_value : IDLValue) (idl_type : Option IDLType)
    (idl2json_options : Idl2JsonOptions) : Except ConvError String :=
  let json_value :=
    match idl_type with
    | some t => idl2json_with_weak_names idl_value t idl2json_options
    | Option.none => idl2json idl_value idl2json_options
  .ok (if idl2json_options.compact then toStringJson json_value
       else toStringPrettyJson json_value)

/-- convert_all of idl2json_cli/src/lib.rs: convert every top-level argument
independently and join the renderings with newlines. -/
def convert_all (idl_args : IDLArgs) (idl_type : Option IDLType)
    (idl2json_options : Idl2JsonOptions) : Except ConvError String :=
  match collectExcept (idl_args.args.map
      (fun idl_value => convert_one idl_value idl_type idl2json_options)) with
  | .error err => .error err
  | .ok json_structures => .ok (String.intercalate "\n" json_structures)

/-- main of idl2json_cli/src/lib.rs (the IDL-to-document direction): parse the
input argument tuple, load every schema source, then dispatch on the init
flag and the shape of the explicit type string.  The parsed input is passed
as the outcome of the external argument-text parser. -/
def main (args : Args) (dids : List (Except ConvError IDLProg))
    (idl_input : Except ConvError IDLArgs) : Except ConvError String :=
  match idl_input with
  | .error err => .error err
  | .ok idl_args =>
    match load_did_files dids with
    | .error err => .error err
    | .ok progs =>
      let idl2json_options : Idl2JsonOptions :=
        { prog := progs, bytes_as := args.bytes_as, compact := args.compact }
      if args.init then
        match progs.head? with
        | Option.none => .error .noDidFile
        | some first_prog =>
          match get_init_arg_type first_prog with
          | .error err => .error err
          | .ok idl_types =>
            .ok (toStringJson
              (idl_args2json_with_weak_names idl_args idl_types idl2json_options))
      else
        match args.typ with
        | some idl_type_str =>
          if strStartsWith (strTrim idl_type_str) "(" then
            match parseIDLTypes idl_type_str with
            | some idl_types =>
              .ok (toStringJson
                (idl_args2json_with_weak_names idl_args idl_types idl2json_options))
            | Option.none => .error .parseTypeFailed
          else
            match parseIDLType idl_type_str with
            | some idl_type => convert_all idl_args (some idl_type) idl2json_options
            | Option.none => .error .parseTypeFailed
        | Option.none => convert_all idl_args Option.none idl2json_options

end Cli

/-- Collecting mapped fallible results succeeds exactly when every element
maps successfully, pointwise in order. -/
theorem collectExcept_map_ok_iff {e a b : Type} (f : a → Except e b) (l : List a)
    (r : List b) :
    collectExcept (l.map f) = .ok r ↔ List.Forall₂ (fun x y => f x = .ok y) l r := by
  induction l generalizing r with
  | nil => simp [collectExcept, List.forall₂_nil_left_iff, eq_comm]
  | cons x l ih =>
    cases hfx : f x with
    | error err =>
      simp [collectExcept, hfx, List.forall₂_cons_left_iff]
    | ok v =>
      cases hcl : collectExcept (l.map f) with
      | error err =>
        simp only [List.map_cons, collectExcept, hfx, hcl, List.forall₂_cons_left_iff]
        constructor
        · intro h; cases h
        · rintro ⟨y, l2, hy, hl2, rfl⟩
          have h2 := (ih l2).mpr hl2
          rw [hcl] at h2
          cases h2
      | ok vs =>
        simp only [List.map_cons, collectExcept, hfx, hcl, List.forall₂_cons_left_iff]
        constructor
        · intro h
          cases h
          exact ⟨v, vs, rfl, (ih vs).mp hcl, rfl⟩
        · rintro ⟨y, l2, hy, hl2, rfl⟩
          have h2 := (ih l2).mpr hl2
          rw [hcl] at h2
          cases h2
          cases hy
          rfl

/-- If some element maps to an error, collecting the mapped results is an
error. -/
theorem collectExcept_map_error_of_mem {e a b : Type} (f : a → Except e b) (l : List a)
    (x : a) (hx : x ∈ l) (err : e) (hfx : f x = .error err) :
    ∃ err2, collectExcept (l.map f) = .error err2 := by
  induction l with
  | nil => cases hx
  | cons y l ih =>
    rcases List.mem_cons.mp hx with h | h
    · subst h
      exact ⟨err, by simp [collectExcept, hfx]⟩
    · cases hfy : f y with
      | error e2 => exact ⟨e2, by simp [collectExcept, hfy]⟩
      | ok v =>
        obtain ⟨e2, he2⟩ := ih h
        exact ⟨e2, by simp [collectExcept, hfy, he2]⟩

/-- Collecting mapped results of a function that succeeds everywhere yields
the mapped successes. -/
theorem collectExcept_map_ok_of_forall {e a b : Type} (f : a → Except e b) (g : a → b)
    (l : List a) (h : ∀ x ∈ l, f x = .ok (g x)) :
    collectExcept (l.map f) = .ok (l.map g) := by
  induction l with
  | nil => rfl
  | cons x l ih =>
    simp [collectExcept, h x (List.mem_cons_self x l),
      ih (fun y hy => h y (List.mem_cons_of_mem x hy))]

/-- Collecting stops at the first error, whatever follows it. -/
theorem collectExcept_append_error {e a : Type} (pre : List (Except e a)) (err : e)
    (post : List (Except e a)) (hpre : ∀ x ∈ pre, ∃ v, x = .ok v) :
    collectExcept (pre ++ .error err :: post) = .error err := by
  induction pre with
  | nil => simp [collectExcept]
  | cons x pre ih =>
    obtain ⟨v, hv⟩ := hpre x (List.mem_cons_self x pre)
    subst hv
    simp [collectExcept, ih (fun y hy => hpre y (List.mem_cons_of_mem _ hy))]

/-- Loading a list of sources that all parse yields exactly those programs. -/
theorem load_did_files_map_ok (progs : List IDLProg) :
    Cli.load_did_files (progs.map Except.ok) = .ok progs := by
  have h := collectExcept_map_ok_of_forall
    (fun p : IDLProg => (Except.ok p : Except ConvError IDLProg)) id progs (fun x _ => rfl)
  simpa [Cli.load_did_files] using h

/-- C1 (amended): json_args2idl_with_types fails on unparseable input with the
malformed-input error, on parseable non-array input with the
expected-a-JSON-array error, and on an array whose length differs from the
number N of declared argument types with an arity-mismatch error naming the
expected and actual counts; on an array of length exactly N it succeeds
exactly when every element converts by position against the corresponding
declared type, with no cross-element dependency, rendering the converted
argument tuple. -/
theorem c1_json_args2idl_with_types_arity (prog : IDLProg) (idl_types : IDLTypes)
    (json_str : String) :
    (parseJson json_str = Option.none →
      ReverseConversion.json_args2idl_with_types prog idl_types json_str
        = .error .malformedInput)
  ∧ (∀ v, parseJson json_str = some v → (∀ xs, v ≠ JsonValue.arr xs) →
      ReverseConversion.json_args2idl_with_types prog idl_types json_str
        = .error .expectedJsonArray)
  ∧ (∀ xs, parseJson json_str = some (JsonValue.arr xs) →
      xs.length ≠ idl_types.args.length →
      ReverseConversion.json_args2idl_with_types prog idl_types json_str
        = .error (.arityMismatch idl_types.args.length xs.length))
  ∧ (∀ xs, parseJson json_str = some (JsonValue.arr xs) →
      xs.length = idl_types.args.length →
      ∀ out, (ReverseConversion.json_args2idl_with_types prog idl_types json_str = .ok out
        ↔ ∃ vals, List.Forall₂
            (fun (p : JsonValue × IDLType) w => Yaml2Candid.convert prog p.2 p.1 = .ok w)
            (xs.zip idl_types.args) vals
          ∧ out = renderIDLArgs (IDLArgs.mk vals))) := by
  refine ⟨?_, ?_, ?_, ?_⟩
  · intro hp
    simp [ReverseConversion.json_args2idl_with_types, ReverseConversion.json_str_to_value, hp]
  · intro v hp hv
    unfold ReverseConversion.json_args2idl_with_types ReverseConversion.json_str_to_value
    rw [hp]
    cases v with
    | null => rfl
    | bool b => rfl
    | num n => rfl
    | str s => rfl
    | arr xs => exact absurd rfl (hv xs)
    | obj kvs => rfl
  · intro xs hp hlen
    simp [ReverseConversion.json_args2idl_with_types,
      ReverseConversion.json_str_to_value, hp, hlen]
  · intro xs hp hlen out
    simp only [ReverseConversion.json_args2idl_with_types,
      ReverseConversion.json_str_to_value, hp]
    rw [if_neg (by simp [hlen])]
    cases hce : collectExcept ((xs.zip idl_types.args).map
        (fun p => Yaml2Candid.convert prog p.2 p.1)) with
    | error err =>
      simp only [hce]
      constructor
      · intro h; cases h
      · rintro ⟨vals, hvals, rfl⟩
        have h2 := (collectExcept_map_ok_iff
          (fun p : JsonValue × IDLType => Yaml2Candid.convert prog p.2 p.1)
          (xs.zip idl_types.args) vals).mpr hvals
        rw [hce] at h2
        cases h2
    | ok vals0 =>
      simp only [hce]
      constructor
      · intro h
        cases h
        exact ⟨vals0, (collectExcept_map_ok_iff _ _ _).mp hce, rfl⟩
      · rintro ⟨vals, hvals, rfl⟩
        have h2 := (collectExcept_map_ok_iff
          (fun p : JsonValue × IDLType => Yaml2Candid.convert prog p.2 p.1)
          (xs.zip idl_types.args) vals).mpr hvals
        rw [hce] at h2
        cases h2
        rfl

/-- C1 counterexample: with one declared argument type, the non-array input 5
fails with the expected-a-JSON-array error, which is not an arity-mismatch
error, refuting the claim that every input other than an array of matching
length fails with an arity-mismatch error naming the expected and actual
counts. -/
theorem c1_counterexample :
    ReverseConversion.json_args2idl_with_types Cli.emptyProg
        (IDLTypes.mk [IDLType.primT PrimType.nat]) "5"
      = .error .expectedJsonArray
    ∧ ConvError.expectedJsonArray ≠ ConvError.arityMismatch 1 0 :=
  ⟨rfl, by decide⟩

/-- C1 witness: the arity branch of the theorem at a concrete input: one
declared type and the empty-array input give the arity-mismatch error naming
one expected and zero actual arguments. -/
theorem c1_witness :
    ReverseConversion.json_args2idl_with_types Cli.emptyProg
        (IDLTypes.mk [IDLType.primT PrimType.nat]) "[]"
      = .error (.arityMismatch 1 0) :=
  (c1_json_args2idl_with_types_arity Cli.emptyProg
    (IDLTypes.mk [IDLType.primT PrimType.nat]) "[]").2.2.1 [] rfl (by decide)

/-- C8: conversion is a pure deterministic function of its inputs: equal
inputs give identical results for the reverse-conversion entry points; a
failing element conversion makes the whole argument-tuple conversion fail;
and a failed conversion returns an error and never an output string. -/
theorem c8_pure_deterministic :
    (∀ (prog : IDLProg) (idl_types : IDLTypes) (s1 s2 : String), s1 = s2 →
      ReverseConversion.json_args2idl_with_types prog idl_types s1
        = ReverseConversion.json_args2idl_with_types prog idl_types s2)
  ∧ (∀ (prog : IDLProg) (t : IDLType) (v1 v2 : JsonValue), v1 = v2 →
      ReverseConversion.convert_one prog t v1 = ReverseConversion.convert_one prog t v2)
  ∧ (∀ (prog : IDLProg) (idl_types : IDLTypes) (s : String) (xs : List JsonValue),
      parseJson s = some (JsonValue.arr xs) →
      xs.length = idl_types.args.length →
      (∃ p ∈ xs.zip idl_types.args, ∃ err, Yaml2Candid.convert prog p.2 p.1 = .error err) →
      ∃ err, ReverseConversion.json_args2idl_with_types prog idl_types s = .error err)
  ∧ (∀ (prog : IDLProg) (idl_types : IDLTypes) (s : String) (err : ConvError) (out : String),
      ReverseConversion.json_args2idl_with_types prog idl_types s = .error err →
      ReverseConversion.json_args2idl_with_types prog idl_types s ≠ .ok out) := by
  refine ⟨fun _ _ _ _ h => by rw [h], fun _ _ _ _ h => by rw [h], ?_, ?_⟩
  · rintro prog idl_types s xs hp hlen ⟨p, hmem, err, herr⟩
    obtain ⟨err2, he2⟩ := collectExcept_map_error_of_mem
      (fun p : JsonValue × IDLType => Yaml2Candid.convert prog p.2 p.1)
      (xs.zip idl_types.args) p hmem err herr
    refine ⟨err2, ?_⟩
    simp only [ReverseConversion.json_args2idl_with_types,
      ReverseConversion.json_str_to_value, hp]
    rw [if_neg (by simp [hlen])]
    rw [he2]
  · intro prog idl_types s err out he
    rw [he]
    intro hc
    cases hc

/-- C8 witness: one failing element (a boolean where a nat is declared) makes
the whole tuple conversion fail, at a concrete input. -/
theorem c8_witness :
    ∃ err, ReverseConversion.json_args2idl_with_types Cli.emptyProg
      (IDLTypes.mk [IDLType.primT PrimType.nat]) "[true]" = .error err :=
  c8_pure_deterministic.2.2.1 Cli.emptyProg (IDLTypes.mk [IDLType.primT PrimType.nat])
    "[true]" [JsonValue.bool true] rfl rfl
    ⟨(JsonValue.bool true, IDLType.primT PrimType.nat), List.mem_singleton.mpr rfl,
      ConvError.typeMismatch, rfl⟩

/-- C2: classification of the explicit type string in the document-to-IDL
direction: a trimmed string starting with an opening parenthesis is parsed as
a tuple of types and converted as an argument list; otherwise a string with
no whitespace, braces, colons or semicolons is treated as a named-type lookup
for single-value conversion; any other string is parsed as an inline type
literal for single-value conversion. -/
theorem c2_type_string_classification (dids : List (Except ConvError IDLProg))
    (progs : List IDLProg) (hd : Cli.load_did_files dids = .ok progs)
    (t json_str : String) :
    (strStartsWith (strTrim t) "(" = true →
      Cli.main_json2idl { typ := some t, init := false } dids json_str =
        (match parseIDLTypes t with
         | some idl_types =>
           ReverseConversion.json_args2idl_with_types (progs.headD Cli.emptyProg)
             idl_types json_str
         | Option.none => .error .parseTypeFailed))
  ∧ (strStartsWith (strTrim t) "(" = false →
      (¬ strAny (strTrim t) Char.isWhitespace ∧ ¬ strContainsChar (strTrim t) lbrace
        ∧ ¬ strContainsChar (strTrim t) rbrace ∧ ¬ strContainsChar (strTrim t) ':'
        ∧ ¬ strContainsChar (strTrim t) ';') →
      Cli.main_json2idl { typ := some t, init := false } dids json_str =
        ReverseConversion.json2idl_with_type_name (progs.headD Cli.emptyProg)
          (strTrim t) json_str)
  ∧ (strStartsWith (strTrim t) "(" = false →
      ¬ (¬ strAny (strTrim t) Char.isWhitespace ∧ ¬ strContainsChar (strTrim t) lbrace
        ∧ ¬ strContainsChar (strTrim t) rbrace ∧ ¬ strContainsChar (strTrim t) ':'
        ∧ ¬ strContainsChar (strTrim t) ';') →
      Cli.main_json2idl { typ := some t, init := false } dids json_str =
        (match parseIDLType (strTrim t) with
         | some idl_type =>
           ReverseConversion.json2idl_with_type (progs.headD Cli.emptyProg)
             idl_type json_str
         | Option.none => .error .parseTypeFailed)) := by
  refine ⟨?_, ?_, ?_⟩
  · intro h1
    simp [Cli.main_json2idl, hd, h1]
  · intro h1 h2
    obtain ⟨a, b, c, d, e⟩ := h2
    simp [Cli.main_json2idl, hd, h1, a, b, c, d, e]
  · intro h1 h2
    simp [Cli.main_json2idl, hd, h1, h2]
    intro a b c d e
    exact absurd ⟨by simp [a], by simp [b], by simp [c], by simp [d], by simp [e]⟩ h2

/-- C2 witness: the bare identifier branch at a concrete input: type string
mytype with no schema source becomes a named-type lookup against the empty
program. -/
theorem c2_witness :
    Cli.main_json2idl { typ := some "mytype", init := false } [] "null" =
      ReverseConversion.json2idl_with_type_name Cli.emptyProg "mytype" "null" :=
  (c2_type_string_classification [] [] rfl "mytype" "null").2.1 (by decide) (by decide)

/-- A schema program whose service declares a single nat init argument. -/
def initProg : IDLProg :=
  { decs := [], actor := some (.classT [.primT .nat] .servT) }

/-- convert_all succeeds exactly when each top-level argument converts
independently, and its output is the newline-join of the per-argument
renderings. -/
theorem convert_all_ok_iff (idl_args : IDLArgs) (idl_type : Option IDLType)
    (opts : Idl2JsonOptions) (out : String) :
    Cli.convert_all idl_args idl_type opts = .ok out ↔
      ∃ ss, List.Forall₂ (fun v str2 => Cli.convert_one v idl_type opts = .ok str2)
          idl_args.args ss
        ∧ out = String.intercalate "\n" ss := by
  unfold Cli.convert_all
  cases hce : collectExcept (idl_args.args.map
      (fun idl_value => Cli.convert_one idl_value idl_type opts)) with
  | error err =>
    simp only [hce]
    constructor
    · intro h; cases h
    · rintro ⟨ss, hss, rfl⟩
      have h2 := (collectExcept_map_ok_iff
        (fun v => Cli.convert_one v idl_type opts) idl_args.args ss).mpr hss
      rw [hce] at h2
      cases h2
  | ok ss0 =>
    simp only [hce]
    constructor
    · intro h
      cases h
      exact ⟨ss0, (collectExcept_map_ok_iff _ _ _).mp hce, rfl⟩
    · rintro ⟨ss, hss, rfl⟩
      have h2 := (collectExcept_map_ok_iff
        (fun v => Cli.convert_one v idl_type opts) idl_args.args ss).mpr hss
      rw [hce] at h2
      cases h2
      rfl

/-- The init branch of main converts the whole tuple against the
init-argument types of the first program and serializes it with one compact
serialization call. -/
theorem main_init_eq_ok (args : Cli.Args) (dids : List (Except ConvError IDLProg))
    (progs : List IDLProg) (p : IDLProg) (tys : IDLTypes) (idl_args : IDLArgs)
    (hinit : args.init = true) (hd : Cli.load_did_files dids = .ok progs)
    (hh : progs.head? = some p) (hg : get_init_arg_type p = .ok tys) :
    Cli.main args dids (.ok idl_args) =
      .ok (toStringJson (idl_args2json_with_weak_names idl_args tys
        { prog := progs, bytes_as := args.bytes_as, compact := args.compact })) := by
  simp [Cli.main, hd, hinit, hh, hg]

/-- A failed init-argument extraction aborts main with that error. -/
theorem main_init_eq_err (args : Cli.Args) (dids : List (Except ConvError IDLProg))
    (progs : List IDLProg) (p : IDLProg) (idl_args : IDLArgs) (err : ConvError)
    (hinit : args.init = true) (hd : Cli.load_did_files dids = .ok progs)
    (hh : progs.head? = some p) (hg : get_init_arg_type p = .error err) :
    Cli.main args dids (.ok idl_args) = .error err := by
  simp [Cli.main, hd, hinit, hh, hg]

/-- With neither init flag nor type string, main converts through
convert_all in untyped mode. -/
theorem main_no_typ_eq (args : Cli.Args) (dids : List (Except ConvError IDLProg))
    (progs : List IDLProg) (idl_args : IDLArgs)
    (hinit : args.init = false) (htyp : args.typ = Option.none)
    (hd : Cli.load_did_files dids = .ok progs) :
    Cli.main args dids (.ok idl_args) =
      Cli.convert_all idl_args Option.none
        { prog := progs, bytes_as := args.bytes_as, compact := args.compact } := by
  simp [Cli.main, hd, hinit, htyp]

/-- With a tuple type string (leading parenthesis after trimming) that
parses, main serializes the whole tuple conversion with one compact
serialization call. -/
theorem main_typ_tuple_eq (args : Cli.Args) (dids : List (Except ConvError IDLProg))
    (progs : List IDLProg) (t : String) (tys : IDLTypes) (idl_args : IDLArgs)
    (hinit : args.init = false) (htyp : args.typ = some t)
    (hparen : strStartsWith (strTrim t) "(" = true)
    (hpt : parseIDLTypes t = some tys)
    (hd : Cli.load_did_files dids = .ok progs) :
    Cli.main args dids (.ok idl_args) =
      .ok (toStringJson (idl_args2json_with_weak_names idl_args tys
        { prog := progs, bytes_as := args.bytes_as, compact := args.compact })) := by
  simp [Cli.main, hd, hinit, htyp, hparen, hpt]

/-- With a non-tuple explicit type string that parses, main converts through
convert_all against that single type. -/
theorem main_typ_inline_eq (args : Cli.Args) (dids : List (Except ConvError IDLProg))
    (progs : List IDLProg) (t : String) (ty : IDLType) (idl_args : IDLArgs)
    (hinit : args.init = false) (htyp : args.typ = some t)
    (hparen : strStartsWith (strTrim t) "(" = false)
    (hpt : parseIDLType t = some ty)
    (hd : Cli.load_did_files dids = .ok progs) :
    Cli.main args dids (.ok idl_args) =
      Cli.convert_all idl_args (some ty)
        { prog := progs, bytes_as := args.bytes_as, compact := args.compact } := by
  simp [Cli.main, hd, hinit, htyp, hparen, hpt]

/-- C3 counterexample: an init-flag invocation with two top-level arguments
produces the single-line JSON array document of both arguments, not one
fragment per line: the tuple is merged into one enclosing document. -/
theorem c3_counterexample :
    Cli.main { typ := Option.none, init := true, bytes_as := Option.none, compact := false }
        [.ok initProg] (.ok (IDLArgs.mk [.nat 1, .nat 2]))
      = .ok "[1,2]"
    ∧ (IDLArgs.mk [IDLValue.nat 1, IDLValue.nat 2]).args.length = 2
    ∧ strContainsChar "[1,2]" '\n' = false :=
  ⟨rfl, rfl, rfl⟩

/-- C3 (amended): each top-level argument is converted independently; in the
convert_all paths (no init flag and an absent or non-tuple type string) the
results are the per-argument renderings joined one per line, while the
init-flag and tuple-type-string paths serialize the whole argument tuple as
one enclosing JSON document. -/
theorem c3_tuple_fragments :
    (∀ (idl_args : IDLArgs) (idl_type : Option IDLType) (opts : Idl2JsonOptions)
      (out : String),
      Cli.convert_all idl_args idl_type opts = .ok out ↔
        ∃ ss, List.Forall₂ (fun v str2 => Cli.convert_one v idl_type opts = .ok str2)
            idl_args.args ss
          ∧ out = String.intercalate "\n" ss)
  ∧ (∀ (args : Cli.Args) (dids : List (Except ConvError IDLProg)) (progs : List IDLProg)
      (idl_args : IDLArgs), args.init = false → args.typ = Option.none →
      Cli.load_did_files dids = .ok progs →
      Cli.main args dids (.ok idl_args) =
        Cli.convert_all idl_args Option.none
          { prog := progs, bytes_as := args.bytes_as, compact := args.compact })
  ∧ (∀ (args : Cli.Args) (dids : List (Except ConvError IDLProg)) (progs : List IDLProg)
      (p : IDLProg) (tys : IDLTypes) (idl_args : IDLArgs), args.init = true →
      Cli.load_did_files dids = .ok progs → progs.head? = some p →
      get_init_arg_type p = .ok tys →
      Cli.main args dids (.ok idl_args) =
        .ok (toStringJson (idl_args2json_with_weak_names idl_args tys
          { prog := progs, bytes_as := args.bytes_as, compact := args.compact })))
  ∧ (∀ (args : Cli.Args) (dids : List (Except ConvError IDLProg)) (progs : List IDLProg)
      (t : String) (tys : IDLTypes) (idl_args : IDLArgs), args.init = false →
      args.typ = some t → strStartsWith (strTrim t) "(" = true →
      parseIDLTypes t = some tys → Cli.load_did_files dids = .ok progs →
      Cli.main args dids (.ok idl_args) =
        .ok (toStringJson (idl_args2json_with_weak_names idl_args tys
          { prog := progs, bytes_as := args.bytes_as, compact := args.compact })))
  ∧ (∀ (args : Cli.Args) (dids : List (Except ConvError IDLProg)) (progs : List IDLProg)
      (t : String) (ty : IDLType) (idl_args : IDLArgs), args.init = false →
      args.typ = some t → strStartsWith (strTrim t) "(" = false →
      parseIDLType t = some ty → Cli.load_did_files dids = .ok progs →
      Cli.main args dids (.ok idl_args) =
        Cli.convert_all idl_args (some ty)
          { prog := progs, bytes_as := args.bytes_as, compact := args.compact }) :=
  ⟨convert_all_ok_iff,
   fun args dids progs idl_args h1 h2 h3 => main_no_typ_eq args dids progs idl_args h1 h2 h3,
   fun args dids progs p tys idl_args h1 h2 h3 h4 =>
     main_init_eq_ok args dids progs p tys idl_args h1 h2 h3 h4,
   fun args dids progs t tys idl_args h1 h2 h3 h4 h5 =>
     main_typ_tuple_eq args dids progs t tys idl_args h1 h2 h3 h4 h5,
   fun args dids progs t ty idl_args h1 h2 h3 h4 h5 =>
     main_typ_inline_eq args dids progs t ty idl_args h1 h2 h3 h4 h5⟩

/-- C3 witness: at concrete inputs, the no-type path equals convert_all in
untyped mode, and the tuple-type-string path serializes the whole
two-argument tuple as one JSON document. -/
theorem c3_witness :
    (Cli.main { typ := Option.none, init := false, bytes_as := Option.none, compact := true }
        [] (.ok (IDLArgs.mk [.nat 7]))
      = Cli.convert_all (IDLArgs.mk [.nat 7]) Option.none
          { prog := [], bytes_as := Option.none, compact := true })
    ∧ (Cli.main { typ := some "(nat)", init := false, bytes_as := Option.none, compact := false }
        [] (.ok (IDLArgs.mk [.nat 1, .nat 2]))
      = .ok (toStringJson (idl_args2json_with_weak_names (IDLArgs.mk [.nat 1, .nat 2])
          (IDLTypes.mk [.primT .nat])
          { prog := [], bytes_as := Option.none, compact := false }))) :=
  ⟨c3_tuple_fragments.2.1
    { typ := Option.none, init := false, bytes_as := Option.none, compact := true }
    [] [] (IDLArgs.mk [.nat 7]) rfl rfl rfl,
   c3_tuple_fragments.2.2.2.1
    { typ := some "(nat)", init := false, bytes_as := Option.none, compact := false }
    [] [] "(nat)" (IDLTypes.mk [.primT .nat]) (IDLArgs.mk [.nat 1, .nat 2])
    rfl rfl rfl rfl rfl⟩

/-- C4 counterexample: an init-flag invocation with the compact flag unset is
nevertheless serialized compactly: the output equals the compact rendering of
the converted tuple, which differs from its pretty rendering. -/
theorem c4_counterexample :
    Cli.main { typ := Option.none, init := true, bytes_as := Option.none, compact := false }
        [.ok initProg] (.ok (IDLArgs.mk [.nat 1, .nat 2]))
      = .ok (toStringJson (JsonValue.arr [.num 1, .num 2]))
    ∧ toStringJson (JsonValue.arr [.num 1, .num 2])
        ≠ toStringPrettyJson (JsonValue.arr [.num 1, .num 2]) :=
  ⟨rfl, by decide⟩

/-- C4 (amended): in the convert_all paths every fragment is serialized
compactly when the compact flag is set and pretty otherwise; the init-flag
and tuple-type-string paths always serialize their single document with the
compact serializer, regardless of the flag. -/
theorem c4_compact_flag :
    (∀ (v : IDLValue) (t : Option IDLType) (opts : Idl2JsonOptions), opts.compact = true →
      Cli.convert_one v t opts = .ok (toStringJson
        (match t with
         | some t0 => idl2json_with_weak_names v t0 opts
         | Option.none => idl2json v opts)))
  ∧ (∀ (v : IDLValue) (t : Option IDLType) (opts : Idl2JsonOptions), opts.compact = false →
      Cli.convert_one v t opts = .ok (toStringPrettyJson
        (match t with
         | some t0 => idl2json_with_weak_names v t0 opts
         | Option.none => idl2json v opts)))
  ∧ (∀ (args : Cli.Args) (dids : List (Except ConvError IDLProg)) (progs : List IDLProg)
      (p : IDLProg) (tys : IDLTypes) (idl_args : IDLArgs), args.init = true →
      Cli.load_did_files dids = .ok progs → progs.head? = some p →
      get_init_arg_type p = .ok tys →
      Cli.main args dids (.ok idl_args) =
        .ok (toStringJson (idl_args2json_with_weak_names idl_args tys
          { prog := progs, bytes_as := args.bytes_as, compact := args.compact })))
  ∧ (∀ (args : Cli.Args) (dids : List (Except ConvError IDLProg)) (progs : List IDLProg)
      (t : String) (tys : IDLTypes) (idl_args : IDLArgs), args.init = false →
      args.typ = some t → strStartsWith (strTrim t) "(" = true →
      parseIDLTypes t = some tys → Cli.load_did_files dids = .ok progs →
      Cli.main args dids (.ok idl_args) =
        .ok (toStringJson (idl_args2json_with_weak_names idl_args tys
          { prog := progs, bytes_as := args.bytes_as, compact := args.compact }))) := by
  refine ⟨?_, ?_, fun args dids progs p tys idl_args h1 h2 h3 h4 =>
    main_init_eq_ok args dids progs p tys idl_args h1 h2 h3 h4,
    fun args dids progs t tys idl_args h1 h2 h3 h4 h5 =>
    main_typ_tuple_eq args dids progs t tys idl_args h1 h2 h3 h4 h5⟩
  · intro v t opts hc
    simp [Cli.convert_one, hc]
  · intro v t opts hc
    simp [Cli.convert_one, hc]

/-- C4 witness: at concrete inputs, with the compact flag set the untyped
conversion of a single argument is the compact serialization, and the
tuple-type-string path with the compact flag unset still serializes its
document with the compact serializer. -/
theorem c4_witness :
    (Cli.convert_one (.nat 7) Option.none
        { prog := [], bytes_as := Option.none, compact := true }
      = .ok (toStringJson (idl2json (.nat 7)
          { prog := [], bytes_as := Option.none, compact := true })))
    ∧ (Cli.main { typ := some "(nat)", init := false, bytes_as := Option.none, compact := false }
        [] (.ok (IDLArgs.mk [.nat 3]))
      = .ok (toStringJson (idl_args2json_with_weak_names (IDLArgs.mk [.nat 3])
          (IDLTypes.mk [.primT .nat])
          { prog := [], bytes_as := Option.none, compact := false }))) :=
  ⟨c4_compact_flag.1 (.nat 7) Option.none
    { prog := [], bytes_as := Option.none, compact := true } rfl,
   c4_compact_flag.2.2.2
    { typ := some "(nat)", init := false, bytes_as := Option.none, compact := false }
    [] [] "(nat)" (IDLTypes.mk [.primT .nat]) (IDLArgs.mk [.nat 3])
    rfl rfl rfl rfl rfl⟩

/-- C5: with the init flag set, the argument types used for conversion are
the init-argument types extracted from the first schema source; the
invocation fails when the extraction fails, and the IDL-to-document direction
additionally fails when no schema source is available at all. -/
theorem c5_init_arg_types :
    (∀ (args : Cli.Args) (idl_args : IDLArgs), args.init = true →
      Cli.main args [] (.ok idl_args) = .error .noDidFile)
  ∧ (∀ (args : Cli.Args) (dids : List (Except ConvError IDLProg)) (progs : List IDLProg)
      (p : IDLProg) (idl_args : IDLArgs) (err : ConvError), args.init = true →
      Cli.load_did_files dids = .ok progs → progs.head? = some p →
      get_init_arg_type p = .error err →
      Cli.main args dids (.ok idl_args) = .error err)
  ∧ (∀ (args : Cli.Args) (dids : List (Except ConvError IDLProg)) (progs : List IDLProg)
      (p : IDLProg) (tys : IDLTypes) (idl_args : IDLArgs), args.init = true →
      Cli.load_did_files dids = .ok progs → progs.head? = some p →
      get_init_arg_type p = .ok tys →
      Cli.main args dids (.ok idl_args) =
        .ok (toStringJson (idl_args2json_with_weak_names idl_args tys
          { prog := progs, bytes_as := args.bytes_as, compact := args.compact })))
  ∧ (∀ (args2 : Cli.Json2IdlArgs) (dids : List (Except ConvError IDLProg))
      (progs : List IDLProg) (s : String) (err : ConvError), args2.init = true →
      Cli.load_did_files dids = .ok progs →
      get_init_arg_type (progs.headD Cli.emptyProg) = .error err →
      Cli.main_json2idl args2 dids s = .error err)
  ∧ (∀ (args2 : Cli.Json2IdlArgs) (dids : List (Except ConvError IDLProg))
      (progs : List IDLProg) (s : String) (tys : IDLTypes), args2.init = true →
      Cli.load_did_files dids = .ok progs →
      get_init_arg_type (progs.headD Cli.emptyProg) = .ok tys →
      Cli.main_json2idl args2 dids s =
        ReverseConversion.json_args2idl_with_types (progs.headD Cli.emptyProg) tys s) := by
  refine ⟨?_, ?_, fun args dids progs p tys idl_args h1 h2 h3 h4 =>
    main_init_eq_ok args dids progs p tys idl_args h1 h2 h3 h4, ?_, ?_⟩
  · intro args idl_args hinit
    simp [Cli.main, Cli.load_did_files, collectExcept, hinit]
  · intro args dids progs p idl_args err h1 h2 h3 h4
    exact main_init_eq_err args dids progs p idl_args err h1 h2 h3 h4
  · intro args2 dids progs s err h1 h2 h3
    rw [List.headD_eq_head?] at h3
    simp [Cli.main_json2idl, h1, h2, h3]
  · intro args2 dids progs s tys h1 h2 h3
    rw [List.headD_eq_head?] at h3
    simp [Cli.main_json2idl, h1, h2, h3]

/-- C5 witness: at a concrete schema whose service declares one nat init
argument, the document-to-IDL direction with the init flag converts against
exactly that type list. -/
theorem c5_witness :
    Cli.main_json2idl { typ := Option.none, init := true } [.ok initProg] "[5]"
      = ReverseConversion.json_args2idl_with_types initProg
          (IDLTypes.mk [.primT .nat]) "[5]" :=
  c5_init_arg_types.2.2.2.2 { typ := Option.none, init := true } [.ok initProg]
    [initProg] "[5]" (IDLTypes.mk [.primT .nat]) rfl rfl rfl

/-- C6: with neither init flag nor explicit type string, the document-to-IDL
direction fails asking for a type, while the IDL-to-document direction
succeeds, converting every value from its intrinsic runtime shape alone. -/
theorem c6_neither_init_nor_type :
    (∀ (args2 : Cli.Json2IdlArgs) (dids : List (Except ConvError IDLProg))
      (progs : List IDLProg) (s : String), args2.init = false →
      args2.typ = Option.none → Cli.load_did_files dids = .ok progs →
      Cli.main_json2idl args2 dids s = .error .typeRequired)
  ∧ (∀ (args : Cli.Args) (dids : List (Except ConvError IDLProg)) (progs : List IDLProg)
      (idl_args : IDLArgs), args.init = false → args.typ = Option.none →
      Cli.load_did_files dids = .ok progs →
      Cli.main args dids (.ok idl_args) =
        .ok (String.intercalate "\n" (idl_args.args.map (fun v =>
          if args.compact then
            toStringJson (idl2json v
              { prog := progs, bytes_as := args.bytes_as, compact := args.compact })
          else
            toStringPrettyJson (idl2json v
              { prog := progs, bytes_as := args.bytes_as, compact := args.compact })))))
    := by
  constructor
  · intro args2 dids progs s h1 h2 h3
    simp [Cli.main_json2idl, h1, h2, h3]
  · intro args dids progs idl_args h1 h2 h3
    rw [main_no_typ_eq args dids progs idl_args h1 h2 h3]
    unfold Cli.convert_all
    rw [collectExcept_map_ok_of_forall
      (fun v => Cli.convert_one v Option.none
        { prog := progs, bytes_as := args.bytes_as, compact := args.compact })
      (fun v =>
        if args.compact then
          toStringJson (idl2json v
            { prog := progs, bytes_as := args.bytes_as, compact := args.compact })
        else
          toStringPrettyJson (idl2json v
            { prog := progs, bytes_as := args.bytes_as, compact := args.compact }))
      idl_args.args (fun v _ => by simp [Cli.convert_one])]

/-- C6 witness: at a concrete untyped invocation the conversion succeeds and
renders the single argument from its own shape. -/
theorem c6_witness :
    Cli.main_json2idl { typ := Option.none, init := false } [] "5"
        = .error .typeRequired
    ∧ Cli.main { typ := Option.none, init := false, bytes_as := Option.none, compact := true }
        [] (.ok (IDLArgs.mk [.bool true]))
      = .ok (String.intercalate "\n" [toStringJson (JsonValue.bool true)]) :=
  ⟨c6_neither_init_nor_type.1 { typ := Option.none, init := false } [] [] "5" rfl rfl rfl,
   c6_neither_init_nor_type.2
     { typ := Option.none, init := false, bytes_as := Option.none, compact := true }
     [] [] (IDLArgs.mk [.bool true]) rfl rfl rfl⟩

/-- C7: with several schema sources that all parse, single-environment
operations use only the first source: the whole document-to-IDL direction
behaves as if only the first source were given, and the init-argument lookup
of the IDL-to-document direction extracts from the first program alone,
never merging the remaining environments. -/
theorem c7_first_source_only :
    (∀ (args2 : Cli.Json2IdlArgs) (p : IDLProg) (rest : List IDLProg) (s : String),
      Cli.main_json2idl args2 (Except.ok p :: rest.map Except.ok) s
        = Cli.main_json2idl args2 [Except.ok p] s)
  ∧ (∀ (args : Cli.Args) (p : IDLProg) (rest : List IDLProg) (idl_args : IDLArgs)
      (err : ConvError), args.init = true → get_init_arg_type p = .error err →
      Cli.main args (Except.ok p :: rest.map Except.ok) (.ok idl_args) = .error err)
  ∧ (∀ (args : Cli.Args) (p : IDLProg) (rest : List IDLProg) (idl_args : IDLArgs)
      (tys : IDLTypes), args.init = true → get_init_arg_type p = .ok tys →
      Cli.main args (Except.ok p :: rest.map Except.ok) (.ok idl_args)
        = .ok (toStringJson (idl_args2json_with_weak_names idl_args tys
            { prog := p :: rest, bytes_as := args.bytes_as, compact := args.compact }))) := by
  have hload : ∀ (p : IDLProg) (rest : List IDLProg),
      Cli.load_did_files (Except.ok p :: rest.map Except.ok) = .ok (p :: rest) := by
    intro p rest
    have h := load_did_files_map_ok (p :: rest)
    simpa using h
  refine ⟨?_, ?_, ?_⟩
  · intro args2 p rest s
    have h1 := hload p rest
    have h2 := hload p []
    simp only [List.map_nil] at h2
    simp [Cli.main_json2idl, h1, h2]
  · intro args p rest idl_args err h1 h2
    exact main_init_eq_err args _ (p :: rest) p idl_args err h1 (hload p rest) rfl h2
  · intro args p rest idl_args tys h1 h2
    exact main_init_eq_ok args _ (p :: rest) p tys idl_args h1 (hload p rest) rfl h2

/-- C7 witness: a second schema source with a different init declaration does
not change the document-to-IDL behavior, at a concrete input. -/
theorem c7_witness :
    Cli.main_json2idl { typ := Option.none, init := true }
        [Except.ok initProg, Except.ok Cli.emptyProg] "[5]"
      = Cli.main_json2idl { typ := Option.none, init := true } [Except.ok initProg] "[5]" :=
  c7_first_source_only.1 { typ := Option.none, init := true } initProg [Cli.emptyProg] "[5]"

/-- C9: in the IDL-to-document direction every schema source is read and
parsed before the conversion mode is chosen: once the input text parses, any
failing source aborts main with that failure for every flag combination,
including the untyped mode that needs no schema; and loading fails with the
first failing source's error whatever well-formed sources surround it. -/
theorem c9_schema_parsed_first :
    (∀ (args : Cli.Args) (dids : List (Except ConvError IDLProg)) (idl_args : IDLArgs)
      (err : ConvError), Cli.load_did_files dids = .error err →
      Cli.main args dids (.ok idl_args) = .error err)
  ∧ (∀ (pre : List (Except ConvError IDLProg)) (err : ConvError)
      (post : List (Except ConvError IDLProg)),
      (∀ x ∈ pre, ∃ v, x = .ok v) →
      Cli.load_did_files (pre ++ .error err :: post) = .error err) := by
  constructor
  · intro args dids idl_args err hd
    simp [Cli.main, hd]
  · intro pre err post hpre
    exact collectExcept_append_error pre err post hpre

/-- C9 witness: an unreadable schema file aborts the untyped no-flag
invocation, which would otherwise need no schema at all. -/
theorem c9_witness :
    Cli.main { typ := Option.none, init := false, bytes_as := Option.none, compact := false }
        [.error (.ioError "could not read")] (.ok (IDLArgs.mk [.nat 1]))
      = .error (.ioError "could not read") :=
  c9_schema_parsed_first.1
    { typ := Option.none, init := false, bytes_as := Option.none, compact := false }
    [.error (.ioError "could not read")] (IDLArgs.mk [.nat 1])
    (.ioError "could not read") rfl

/-- C10: with zero schema sources the document-to-IDL direction proceeds
against the empty environment instead of failing up front: it behaves
exactly as if one empty program had been supplied; an inline literal type
that references no named types still converts successfully; a named-type
lookup then fails downstream against the empty environment with an
unknown-type error; and the init flag fails with the no-init-args error. -/
theorem c10_zero_sources_empty_env :
    (∀ (args2 : Cli.Json2IdlArgs) (s : String),
      Cli.main_json2idl args2 [] s = Cli.main_json2idl args2 [Except.ok Cli.emptyProg] s)
  ∧ (Cli.main_json2idl { typ := some "opt nat", init := false } [] "5" = .ok "opt 5")
  ∧ (∀ (name s : String) (v : JsonValue),
      strStartsWith (strTrim name) "(" = false →
      (¬ strAny (strTrim name) Char.isWhitespace ∧ ¬ strContainsChar (strTrim name) lbrace
        ∧ ¬ strContainsChar (strTrim name) rbrace ∧ ¬ strContainsChar (strTrim name) ':'
        ∧ ¬ strContainsChar (strTrim name) ';') →
      parseJson s = some v →
      Cli.main_json2idl { typ := some name, init := false } [] s
        = .error (.unknownType (strTrim name)))
  ∧ (∀ (tq : Option String) (s : String),
      Cli.main_json2idl { typ := tq, init := true } [] s = .error .noInitArgs) := by
  refine ⟨fun args2 s => rfl, rfl, ?_, fun tq s => rfl⟩
  intro name s v h1 h2 hp
  obtain ⟨a, b, c, d, e⟩ := h2
  have hconv : ∀ (nm : String) (w : JsonValue),
      Yaml2Candid.convert Cli.emptyProg (.varT nm) w = .error (.unknownType nm) :=
    fun nm w => rfl
  simp [Cli.main_json2idl, Cli.load_did_files, collectExcept, h1, a, b, c, d, e,
    ReverseConversion.json2idl_with_type_name, ReverseConversion.json_str_to_value, hp,
    ReverseConversion.convert_one, ReverseConversion.json_value_to_yaml_value, hconv]

/-- C10 witness: a bare type name with no schema sources fails downstream
with the unknown-type error at a concrete input. -/
theorem c10_witness :
    Cli.main_json2idl { typ := some "footype", init := false } [] "7"
      = .error (.unknownType "footype") :=
  c10_zero_sources_empty_env.2.2.1 "footype" "7" (JsonValue.num 7)
    (by decide) (by decide) rfl
